import Mathlib

/-!
Shallow embedding of the reconciliation engine of `src/deploy.rs` (the
dotter deploy/undeploy planner and execution loop).

Paths are modelled as `String`. Ordered sets (`BTreeSet`) and ordered maps
(`BTreeMap`) are modelled as lists in iteration order; the set operations
`difference` and `intersection` iterate the left set's elements filtered by
membership in the right set, exactly as the filter-based definitions below
do.  The planner and the two execution loops are translated directly from
`deploy.rs`; the auxiliary data types and `Action::affect_cache`, whose
defining modules are not part of the provided sources, are modelled from
the specification and marked as such.
-/

namespace Dotter

/-- Modelled from the spec (`config.rs` is not in the provided sources):
the target of a desired symlink, `SymbolicTarget {target, owner}`. -/
structure SymbolicTarget where
  target : String
  owner : Option String
deriving DecidableEq, Repr

/-- Modelled from the spec (`file_state.rs` is not in the provided sources):
a desired or existing symlink, `SymlinkDescription {source, target}`. -/
structure SymlinkDescription where
  source : String
  target : SymbolicTarget
deriving DecidableEq, Repr

/-- Modelled from the spec (`config.rs` is not in the provided sources):
the target of a desired template,
`TemplateTarget {target, owner, append, prepend}`. -/
structure TemplateTarget where
  target : String
  owner : Option String
  append : Option String
  prepend : Option String
deriving DecidableEq, Repr

/-- Modelled from the spec (`file_state.rs` is not in the provided sources):
a desired or existing template, `TemplateDescription {source, target, cache}`. -/
structure TemplateDescription where
  source : String
  target : TemplateTarget
  cache : String
deriving DecidableEq, Repr

/-- Modelled from the spec (`file_state.rs` is not in the provided sources):
`FileState` holds the four `BTreeSet`s, each modelled as a list in
iteration order. -/
structure FileState where
  desired_symlinks : List SymlinkDescription
  desired_templates : List TemplateDescription
  existing_symlinks : List SymlinkDescription
  existing_templates : List TemplateDescription
deriving DecidableEq, Repr

/-- Modelled from the spec (`config.rs` is not in the provided sources):
`Cache {symlinks, templates}`, two ordered source-to-target maps, each
modelled as an association list in iteration order. -/
structure Cache where
  symlinks : List (String × String)
  templates : List (String × String)
deriving DecidableEq, Repr

/-- Rust `Cache::default()`: both maps empty. -/
def Cache.default : Cache := ⟨[], []⟩

/-- The `Action` enum of `actions.rs` (not in the provided sources); the
constructors and their fields are exactly those used by `plan_deploy` and
`plan_undeploy` in `deploy.rs`. -/
inductive Action where
  | CreateSymlink : SymlinkDescription → Action
  | UpdateSymlink : SymlinkDescription → Action
  | DeleteSymlink : (source : String) → (target : String) → Action
  | CreateTemplate : TemplateDescription → Action
  | UpdateTemplate : TemplateDescription → Action
  | DeleteTemplate : (source : String) → (cache : String) → (target : String) → Action
deriving DecidableEq, Repr

/-- `BTreeSet::difference`: the elements of `a` not in `b`, in `a`'s
iteration order. -/
def sdiff {α : Type} [DecidableEq α] (a b : List α) : List α :=
  a.filter (fun x => decide (x ∉ b))

/-- `BTreeSet::intersection`: the elements of `a` that are in `b`; since
both trees are sorted the same way this is `a`'s iteration order. -/
def sinter {α : Type} [DecidableEq α] (a b : List α) : List α :=
  a.filter (fun x => decide (x ∈ b))

/-- Modelled from the spec: Rust `Path::join` of a directory and a
(relative) entry path, as used at `deploy.rs` line 237. -/
def pathJoin (dir entry : String) : String :=
  dir ++ "/" ++ entry

/-- `plan_deploy` (`deploy.rs` lines 182 to 224): six `for` loops, each
pushing one action per element onto the `actions` vector. -/
def plan_deploy (state : FileState) : List Action :=
  let actions : List Action := []
  let actions := (sdiff state.existing_symlinks state.desired_symlinks).foldl
    (fun acc d => acc ++ [Action.DeleteSymlink d.source d.target.target]) actions
  let actions := (sdiff state.existing_templates state.desired_templates).foldl
    (fun acc d => acc ++ [Action.DeleteTemplate d.source d.cache d.target.target]) actions
  let actions := (sdiff state.desired_symlinks state.existing_symlinks).foldl
    (fun acc c => acc ++ [Action.CreateSymlink c]) actions
  let actions := (sdiff state.desired_templates state.existing_templates).foldl
    (fun acc c => acc ++ [Action.CreateTemplate c]) actions
  let actions := (sinter state.desired_symlinks state.existing_symlinks).foldl
    (fun acc u => acc ++ [Action.UpdateSymlink u]) actions
  let actions := (sinter state.desired_templates state.existing_templates).foldl
    (fun acc u => acc ++ [Action.UpdateTemplate u]) actions
  actions

/-- `plan_undeploy` (`deploy.rs` lines 226 to 246): one `DeleteSymlink`
per cache symlink entry, then one `DeleteTemplate` per cache template
entry, whose cache path is `cache_directory.join(source)`. -/
def plan_undeploy (cache : Cache) (cache_directory : String) : List Action :=
  let actions : List Action := []
  let actions := cache.symlinks.foldl
    (fun acc p => acc ++ [Action.DeleteSymlink p.1 p.2]) actions
  let actions := cache.templates.foldl
    (fun acc p => acc ++ [Action.DeleteTemplate p.1 (pathJoin cache_directory p.1) p.2]) actions
  actions

/-- `BTreeMap::remove`: drop the entry with the given key. -/
def removeEntry (m : List (String × String)) (k : String) : List (String × String) :=
  m.filter (fun p => decide (p.1 ≠ k))

/-- `BTreeMap::insert`: overwrite the entry with the given key, or insert
it at its sorted position. -/
def insertEntry (m : List (String × String)) (k v : String) : List (String × String) :=
  match m with
  | [] => [(k, v)]
  | (k', v') :: rest =>
    match compare k k' with
    | Ordering.lt => (k, v) :: (k', v') :: rest
    | Ordering.eq => (k, v) :: rest
    | Ordering.gt => (k', v') :: insertEntry rest k v

/-- Modelled from the spec (`actions.rs` is not in the provided sources):
`Action::affect_cache` — "entries removed on successful delete,
inserted/overwritten on successful create/update", keyed by source. -/
def affect_cache (a : Action) (cache : Cache) : Cache :=
  match a with
  | Action.CreateSymlink s =>
      { cache with symlinks := insertEntry cache.symlinks s.source s.target.target }
  | Action.UpdateSymlink s =>
      { cache with symlinks := insertEntry cache.symlinks s.source s.target.target }
  | Action.DeleteSymlink source _ =>
      { cache with symlinks := removeEntry cache.symlinks source }
  | Action.CreateTemplate t =>
      { cache with templates := insertEntry cache.templates t.source t.target.target }
  | Action.UpdateTemplate t =>
      { cache with templates := insertEntry cache.templates t.source t.target.target }
  | Action.DeleteTemplate source _ _ =>
      { cache with templates := removeEntry cache.templates source }

/-- The outcome of `Action::run` (external fallible code): `Ok(true)`
(applied), `Ok(false)` (skipped), or `Err(_)`. -/
inductive RunResult where
  | applied
  | skipped
  | errored
deriving DecidableEq, Repr

/-- The mutable locals of the execution loops in `deploy` and `undeploy`:
the cache and the `suggest_force` / `error_occurred` flags. -/
structure ExecState where
  cache : Cache
  suggest_force : Bool
  error_occurred : Bool
deriving DecidableEq, Repr

/-- Observable events of a `deploy` / `undeploy` run, in program order. -/
inductive Event where
  | warnEmptyCache
  | preHook
  | runAction : Action → RunResult → Event
  | forceWarning
  | saveCache : Cache → Event
  | postHook
deriving DecidableEq, Repr

/-- The `for action in plan` loop shared by `deploy` (lines 72 to 83) and
`undeploy` (lines 144 to 155): each action is run (its outcome given by
the oracle `outcome`, indexed by position since `run` touches external
state); `Ok(true)` mutates the cache via `affect_cache`, `Ok(false)` sets
`suggest_force`, `Err` sets `error_occurred` and execution continues.
Returns the event trace of the loop and the final locals. -/
def run_loop (outcome : Nat → Action → RunResult) :
    List Action → Nat → ExecState → List Event × ExecState
  | [], _, st => ([], st)
  | a :: rest, i, st =>
    let r := outcome i a
    let st' :=
      match r with
      | RunResult.applied => { st with cache := affect_cache a st.cache }
      | RunResult.skipped => { st with suggest_force := true }
      | RunResult.errored => { st with error_occurred := true }
    let res := run_loop outcome rest (i + 1) st'
    (Event.runAction a r :: res.1, res.2)

/-- `deploy` (`deploy.rs` lines 20 to 109), with its external
collaborators abstracted: configuration loading and file-state building
supply `state`; the cache load supplies `loadedCache` (`None` when the
cache file is absent); hooks and `save_file` are modelled as succeeding,
recorded as events.  Returns the event trace, the returned boolean
(`error_occurred`) and the final in-memory cache. -/
def deploy (opt_act : Bool) (loadedCache : Option Cache) (state : FileState)
    (outcome : Nat → Action → RunResult) : List Event × Bool × Cache :=
  let loadStep : List Event × Cache :=
    match loadedCache with
    | some cache => ([], cache)
    | none => ([Event.warnEmptyCache], Cache.default)
  let preEvents := if opt_act then [Event.preHook] else []
  let plan := plan_deploy state
  let res := run_loop outcome plan 0 ⟨loadStep.2, false, false⟩
  let st :=
    if res.2.suggest_force then { res.2 with error_occurred := true } else res.2
  let forceEvents := if res.2.suggest_force then [Event.forceWarning] else []
  let saveEvents := if opt_act then [Event.saveCache st.cache] else []
  let postEvents := if opt_act then [Event.postHook] else []
  (loadStep.1 ++ preEvents ++ res.1 ++ forceEvents ++ saveEvents ++ postEvents,
    st.error_occurred, st.cache)

/-- The body of `undeploy` after the cache has been loaded successfully
(`deploy.rs` lines 118 to 179): hooks, the execution loop over
`plan_undeploy`, the aggregated skip warning, the conditional save. -/
def undeploy_core (opt_act : Bool) (cache : Cache) (cache_directory : String)
    (outcome : Nat → Action → RunResult) : List Event × Bool × Cache :=
  let preEvents := if opt_act then [Event.preHook] else []
  let plan := plan_undeploy cache cache_directory
  let res := run_loop outcome plan 0 ⟨cache, false, false⟩
  let st :=
    if res.2.suggest_force then { res.2 with error_occurred := true } else res.2
  let forceEvents := if res.2.suggest_force then [Event.forceWarning] else []
  let saveEvents := if opt_act then [Event.saveCache st.cache] else []
  let postEvents := if opt_act then [Event.postHook] else []
  (preEvents ++ res.1 ++ forceEvents ++ saveEvents ++ postEvents,
    st.error_occurred, st.cache)

/-- `undeploy` (`deploy.rs` lines 111 to 180): loading the cache file is
mandatory — `load_file(&opt.cache_file)?.context("load cache: Cannot
undeploy without a cache.")?` aborts with that contextual error when the
file yields no cache, before any plan is computed. -/
def undeploy (opt_act : Bool) (loadedCache : Option Cache) (cache_directory : String)
    (outcome : Nat → Action → RunResult) : Except String (List Event × Bool × Cache) :=
  match loadedCache with
  | none => Except.error "load cache: Cannot undeploy without a cache."
  | some cache => Except.ok (undeploy_core opt_act cache cache_directory outcome)

/-- The elements of a list paired with their positions, starting at `i`. -/
def enumF {α : Type} (i : Nat) : List α → List (Nat × α)
  | [] => []
  | a :: l => (i, a) :: enumF (i + 1) l

/-- Is this event a cache-file save? -/
def Event.isSave : Event → Bool
  | Event.saveCache _ => true
  | _ => false

/-- Is this event the execution of an action? -/
def Event.isRun : Event → Bool
  | Event.runAction _ _ => true
  | _ => false

/-- Is this action an update? -/
def Action.isUpdate : Action → Bool
  | Action.UpdateSymlink _ => true
  | Action.UpdateTemplate _ => true
  | _ => false

/-- The action-execution events of a trace, in order. -/
def runEvents (tr : List Event) : List (Action × RunResult) :=
  tr.filterMap (fun e =>
    match e with
    | Event.runAction a r => some (a, r)
    | _ => none)

/-- Does no action-execution event occur at or after the first save
event of the trace? -/
def runsBeforeSaves (tr : List Event) : Bool :=
  (tr.dropWhile (fun e => !e.isSave)).all (fun e => !e.isRun)

/-- A `for`-loop pushing `f x` for each `x` appends the mapped list. -/
theorem foldl_push {α β : Type} (f : α → β) (l : List α) (init : List β) :
    l.foldl (fun acc x => acc ++ [f x]) init = init ++ l.map f := by
  induction l generalizing init with
  | nil => simp
  | cons a l ih => simp [List.foldl_cons, ih, List.append_assoc]

/-- The execution loop emits one run event per planned action, in plan
order, with the action's own outcome — no outcome stops the loop. -/
theorem run_loop_events (outcome : Nat → Action → RunResult) (l : List Action)
    (i : Nat) (st : ExecState) :
    (run_loop outcome l i st).1 =
      (enumF i l).map (fun p => Event.runAction p.2 (outcome p.1 p.2)) := by
  induction l generalizing i st with
  | nil => rfl
  | cons a rest ih => simp [run_loop, enumF, ih]

/-- The final cache of the execution loop is the initial cache folded
through `affect_cache` over exactly the applied actions. -/
theorem run_loop_cache (outcome : Nat → Action → RunResult) (l : List Action)
    (i : Nat) (st : ExecState) :
    (run_loop outcome l i st).2.cache =
      ((enumF i l).filter (fun p => decide (outcome p.1 p.2 = RunResult.applied))).foldl
        (fun c p => affect_cache p.2 c) st.cache := by
  induction l generalizing i st with
  | nil => rfl
  | cons a rest ih =>
    simp only [run_loop, enumF, List.filter_cons]
    rcases h : outcome i a with _ | _ | _ <;> simp [h, ih]

/-- The final `error_occurred` flag of the execution loop: the initial
flag, or some action's outcome was an error. -/
theorem run_loop_error (outcome : Nat → Action → RunResult) (l : List Action)
    (i : Nat) (st : ExecState) :
    (run_loop outcome l i st).2.error_occurred =
      (st.error_occurred ||
        (enumF i l).any (fun p => decide (outcome p.1 p.2 = RunResult.errored))) := by
  induction l generalizing i st with
  | nil => simp [run_loop, enumF]
  | cons a rest ih =>
    simp only [run_loop, enumF, List.any_cons]
    rcases h : outcome i a with _ | _ | _ <;>
      simp [h, ih, Bool.or_assoc, Bool.or_comm, Bool.or_left_comm]

/-- The final `suggest_force` flag of the execution loop: the initial
flag, or some action's outcome was a skip. -/
theorem run_loop_suggest (outcome : Nat → Action → RunResult) (l : List Action)
    (i : Nat) (st : ExecState) :
    (run_loop outcome l i st).2.suggest_force =
      (st.suggest_force ||
        (enumF i l).any (fun p => decide (outcome p.1 p.2 = RunResult.skipped))) := by
  induction l generalizing i st with
  | nil => simp [run_loop, enumF]
  | cons a rest ih =>
    simp only [run_loop, enumF, List.any_cons]
    rcases h : outcome i a with _ | _ | _ <;>
      simp [h, ih, Bool.or_assoc, Bool.or_comm, Bool.or_left_comm]

/-- `sdiff l l` is empty. -/
theorem sdiff_self {α : Type} [DecidableEq α] (l : List α) : sdiff l l = [] := by
  simp [sdiff]

/-- `sinter l l` is `l` itself. -/
theorem sinter_self {α : Type} [DecidableEq α] (l : List α) : sinter l l = l := by
  simp [sinter]

/-- When no element of `a` lies in `b`, `sdiff a b` is all of `a`. -/
theorem sdiff_of_sinter_nil {α : Type} [DecidableEq α] {a b : List α}
    (h : sinter a b = []) : sdiff a b = a := by
  rw [sinter, List.filter_eq_nil_iff] at h
  rw [sdiff, List.filter_eq_self]
  intro x hx
  simpa using h x hx

/-- The symlink description `a` of the `initial_deploy` test in
`deploy.rs`: source `a_in`, target `a_out`, no owner. -/
def aSymlink : SymlinkDescription :=
  ⟨"a_in", ⟨"a_out", none⟩⟩

/-- The template description `b` of the `initial_deploy` test in
`deploy.rs`: source `b_in`, target `b_out`, cache `cache/b_cache`. -/
def bTemplate : TemplateDescription :=
  ⟨"b_in", ⟨"b_out", none, none, none⟩, "cache/b_cache"⟩

/-- The planner's loops, written as phase concatenation. -/
theorem plan_deploy_phases (state : FileState) :
    plan_deploy state =
      (sdiff state.existing_symlinks state.desired_symlinks).map
        (fun d => Action.DeleteSymlink d.source d.target.target)
      ++ (sdiff state.existing_templates state.desired_templates).map
        (fun d => Action.DeleteTemplate d.source d.cache d.target.target)
      ++ (sdiff state.desired_symlinks state.existing_symlinks).map Action.CreateSymlink
      ++ (sdiff state.desired_templates state.existing_templates).map Action.CreateTemplate
      ++ (sinter state.desired_symlinks state.existing_symlinks).map Action.UpdateSymlink
      ++ (sinter state.desired_templates state.existing_templates).map Action.UpdateTemplate := by
  simp [plan_deploy, foldl_push, List.append_assoc]

/-- C1: `plan_deploy` is exactly the concatenation of six phases in this
order — delete-symlinks (existing minus desired), delete-templates,
create-symlinks (desired minus existing), create-templates,
update-symlinks (desired intersect existing), update-templates — so for
every `FileState` all deletes precede all creates and, within each phase,
symlink actions precede template actions. -/
theorem C1_plan_deploy_six_phases (state : FileState) :
    plan_deploy state =
      (sdiff state.existing_symlinks state.desired_symlinks).map
        (fun d => Action.DeleteSymlink d.source d.target.target)
      ++ (sdiff state.existing_templates state.desired_templates).map
        (fun d => Action.DeleteTemplate d.source d.cache d.target.target)
      ++ (sdiff state.desired_symlinks state.existing_symlinks).map Action.CreateSymlink
      ++ (sdiff state.desired_templates state.existing_templates).map Action.CreateTemplate
      ++ (sinter state.desired_symlinks state.existing_symlinks).map Action.UpdateSymlink
      ++ (sinter state.desired_templates state.existing_templates).map Action.UpdateTemplate :=
  plan_deploy_phases state

/-- C2: `plan_undeploy` emits exactly one `DeleteSymlink` per cache
symlink entry followed by one `DeleteTemplate` per cache template entry
(whose cache path is the cache directory joined with the entry's source),
all symlink deletions before all template deletions, one action per cache
entry; no desired state is consulted (`plan_undeploy` does not take one). -/
theorem C2_plan_undeploy_deletes_cache (cache : Cache) (cache_directory : String) :
    plan_undeploy cache cache_directory =
      cache.symlinks.map (fun p => Action.DeleteSymlink p.1 p.2)
      ++ cache.templates.map
        (fun p => Action.DeleteTemplate p.1 (pathJoin cache_directory p.1) p.2)
    ∧ (plan_undeploy cache cache_directory).length =
        cache.symlinks.length + cache.templates.length := by
  constructor
  · simp [plan_undeploy, foldl_push]
  · simp [plan_undeploy, foldl_push]

/-- C7: when desired and existing sets are disjoint the plan contains no
`Update` action and its creates are all the desired entries, symlink
creates before template creates; when the existing sets are moreover empty
the plan is exactly the create-symlink actions followed by the
create-template actions. -/
theorem C7_disjoint_only_creates (ds : List SymlinkDescription)
    (dt : List TemplateDescription) (es : List SymlinkDescription)
    (et : List TemplateDescription)
    (h1 : sinter ds es = []) (h2 : sinter dt et = []) :
    plan_deploy ⟨ds, dt, es, et⟩ =
      (sdiff es ds).map (fun d => Action.DeleteSymlink d.source d.target.target)
      ++ (sdiff et dt).map (fun d => Action.DeleteTemplate d.source d.cache d.target.target)
      ++ ds.map Action.CreateSymlink
      ++ dt.map Action.CreateTemplate
    ∧ (∀ a ∈ plan_deploy ⟨ds, dt, es, et⟩, a.isUpdate = false)
    ∧ (es = [] → et = [] →
        plan_deploy ⟨ds, dt, es, et⟩ =
          ds.map Action.CreateSymlink ++ dt.map Action.CreateTemplate) := by
  have hds : sdiff ds es = ds := sdiff_of_sinter_nil h1
  have hdt : sdiff dt et = dt := sdiff_of_sinter_nil h2
  have hplan := plan_deploy_phases ⟨ds, dt, es, et⟩
  simp only [hds, hdt, h1, h2, List.map_nil, List.append_nil] at hplan
  refine ⟨hplan, ?_, ?_⟩
  · intro a ha
    rw [hplan] at ha
    simp only [List.mem_append, List.mem_map] at ha
    rcases ha with ((⟨d, _, rfl⟩ | ⟨d, _, rfl⟩) | ⟨c, _, rfl⟩) | ⟨c, _, rfl⟩ <;> rfl
  · intro hes het
    subst hes het
    simpa [sdiff] using hplan

/-- C7 witness: the `initial_deploy` scenario — desired sets `{a}` and
`{b}`, empty existing sets — plans exactly a create-symlink for `a`
followed by a create-template for `b`. -/
theorem C7_witness :
    sinter [aSymlink] ([] : List SymlinkDescription) = []
    ∧ sinter [bTemplate] ([] : List TemplateDescription) = []
    ∧ plan_deploy ⟨[aSymlink], [bTemplate], [], []⟩ =
        [Action.CreateSymlink aSymlink, Action.CreateTemplate bTemplate] := by
  refine ⟨rfl, rfl, ?_⟩
  have h := C7_disjoint_only_creates [aSymlink] [bTemplate] [] [] rfl rfl
  simpa using h.2.2 rfl rfl

/-- C8: when the desired sets coincide with the existing sets the plan is
exactly one `UpdateSymlink` per symlink followed by one `UpdateTemplate`
per template — no creates, no deletes. -/
theorem C8_identical_only_updates (ls : List SymlinkDescription)
    (lt : List TemplateDescription) :
    plan_deploy ⟨ls, lt, ls, lt⟩ =
      ls.map Action.UpdateSymlink ++ lt.map Action.UpdateTemplate := by
  have h := plan_deploy_phases ⟨ls, lt, ls, lt⟩
  simpa [sdiff_self, sinter_self] using h

/-- A filter by a predicate false on every element is empty. -/
theorem filter_eq_nil_of_all_false {α : Type} {p : α → Bool} {l : List α}
    (h : ∀ e ∈ l, p e = false) : l.filter p = [] := by
  rw [List.filter_eq_nil_iff]
  intro a ha
  simp [h a ha]

/-- Dropping while a predicate holds skips a prefix on which it holds
everywhere. -/
theorem dropWhile_append_all {α : Type} {p : α → Bool} {A : List α} (B : List α)
    (h : ∀ e ∈ A, p e = true) : (A ++ B).dropWhile p = B.dropWhile p := by
  induction A with
  | nil => simp
  | cons a A ih =>
    rw [List.cons_append, List.dropWhile_cons]
    simp only [h a (by simp)]
    exact ih (fun e he => h e (by simp [he]))

/-- The loop trace contains no save event. -/
theorem run_loop_no_saves (outcome : Nat → Action → RunResult) (l : List Action)
    (i : Nat) (st : ExecState) :
    ∀ e ∈ (run_loop outcome l i st).1, e.isSave = false := by
  rw [run_loop_events]
  intro e he
  obtain ⟨p, _, rfl⟩ := List.mem_map.mp he
  rfl

/-- Every event of the loop trace is an action execution. -/
theorem run_loop_all_runs (outcome : Nat → Action → RunResult) (l : List Action)
    (i : Nat) (st : ExecState) :
    ∀ e ∈ (run_loop outcome l i st).1, e.isRun = true := by
  rw [run_loop_events]
  intro e he
  obtain ⟨p, _, rfl⟩ := List.mem_map.mp he
  rfl

/-- Appending a save-free prefix does not change `runsBeforeSaves`. -/
theorem runsBeforeSaves_append {A : List Event} (B : List Event)
    (h : ∀ e ∈ A, Event.isSave e = false) :
    runsBeforeSaves (A ++ B) = runsBeforeSaves B := by
  unfold runsBeforeSaves
  rw [dropWhile_append_all B (fun e he => by simp [h e he])]

/-- C3: the cache is mutated only by the applied actions — the loop's
final cache is the initial cache folded through `affect_cache` over
exactly the actions whose run returned `Ok(true)`; skipped and errored
actions leave it untouched.  The final caches of `deploy` and `undeploy`
are the respective instances over their plans. -/
theorem C3_cache_only_on_applied (outcome : Nat → Action → RunResult)
    (l : List Action) (i : Nat) (st : ExecState) (opt_act : Bool)
    (lc : Option Cache) (state : FileState) (c : Cache) (cd : String) :
    (run_loop outcome l i st).2.cache =
      ((enumF i l).filter (fun p => decide (outcome p.1 p.2 = RunResult.applied))).foldl
        (fun cc p => affect_cache p.2 cc) st.cache
    ∧ (deploy opt_act lc state outcome).2.2 =
        ((enumF 0 (plan_deploy state)).filter
            (fun p => decide (outcome p.1 p.2 = RunResult.applied))).foldl
          (fun cc p => affect_cache p.2 cc) (lc.getD Cache.default)
    ∧ undeploy opt_act (some c) cd outcome =
        Except.ok (undeploy_core opt_act c cd outcome)
    ∧ (undeploy_core opt_act c cd outcome).2.2 =
        ((enumF 0 (plan_undeploy c cd)).filter
            (fun p => decide (outcome p.1 p.2 = RunResult.applied))).foldl
          (fun cc p => affect_cache p.2 cc) c := by
  refine ⟨run_loop_cache outcome l i st, ?_, rfl, ?_⟩
  · cases lc with
    | none =>
      simp only [deploy, Option.getD]
      rcases hsf : (run_loop outcome (plan_deploy state) 0
          ⟨Cache.default, false, false⟩).2.suggest_force <;>
        simp [hsf, run_loop_cache]
    | some cache =>
      simp only [deploy, Option.getD]
      rcases hsf : (run_loop outcome (plan_deploy state) 0
          ⟨cache, false, false⟩).2.suggest_force <;>
        simp [hsf, run_loop_cache]
  · simp only [undeploy_core]
    rcases hsf : (run_loop outcome (plan_undeploy c cd) 0
        ⟨c, false, false⟩).2.suggest_force <;>
      simp [hsf, run_loop_cache]

/-- A `filterMap` whose function always succeeds is a `map`. -/
theorem filterMap_always_some {α β : Type} (f : α → β) (l : List α) :
    l.filterMap (fun x => some (f x)) = l.map f := by
  induction l with
  | nil => rfl
  | cons a l ih => simp [List.filterMap_cons, ih]

/-- C5: execution never aborts — in both `deploy` and `undeploy`, the
run events of the trace are exactly one per planned action, in plan
order, each with its own outcome; an error at any position leaves the
execution of every later action intact. -/
theorem C5_errors_do_not_abort (opt_act : Bool) (lc : Option Cache)
    (state : FileState) (c : Cache) (cd : String)
    (outcome : Nat → Action → RunResult) :
    runEvents (deploy opt_act lc state outcome).1 =
      (enumF 0 (plan_deploy state)).map (fun p => (p.2, outcome p.1 p.2))
    ∧ undeploy opt_act (some c) cd outcome =
        Except.ok (undeploy_core opt_act c cd outcome)
    ∧ runEvents (undeploy_core opt_act c cd outcome).1 =
        (enumF 0 (plan_undeploy c cd)).map (fun p => (p.2, outcome p.1 p.2)) := by
  refine ⟨?_, rfl, ?_⟩
  · cases lc with
    | none =>
      simp only [deploy]
      rcases hsf : (run_loop outcome (plan_deploy state) 0
          ⟨Cache.default, false, false⟩).2.suggest_force <;>
        cases opt_act <;>
        simp [hsf, runEvents, run_loop_events, List.filterMap_map, Function.comp_def, filterMap_always_some]
    | some cache =>
      simp only [deploy]
      rcases hsf : (run_loop outcome (plan_deploy state) 0
          ⟨cache, false, false⟩).2.suggest_force <;>
        cases opt_act <;>
        simp [hsf, runEvents, run_loop_events, List.filterMap_map, Function.comp_def, filterMap_always_some]
  · simp only [undeploy_core]
    rcases hsf : (run_loop outcome (plan_undeploy c cd) 0
        ⟨c, false, false⟩).2.suggest_force <;>
      cases opt_act <;>
      simp [hsf, runEvents, run_loop_events, List.filterMap_map, Function.comp_def, filterMap_always_some]

/-- Membership in a conditional singleton list forces the element. -/
theorem mem_if_singleton {α : Type} {p : Prop} [Decidable p] {x a : α}
    (h : a ∈ if p then [x] else []) : a = x := by
  split at h
  · simpa using h
  · simp at h

/-- A trace assembled from save-free segments followed by run-free
segments keeps every run event before every save event. -/
theorem rbs_assembled (load pre loop forceE saveE postE : List Event)
    (hload : ∀ e ∈ load, e.isSave = false)
    (hpre : ∀ e ∈ pre, e.isSave = false)
    (hloop : ∀ e ∈ loop, e.isSave = false)
    (hforce : ∀ e ∈ forceE, e.isSave = false)
    (hsave : ∀ e ∈ saveE, e.isRun = false)
    (hpost : ∀ e ∈ postE, e.isRun = false) :
    runsBeforeSaves (load ++ pre ++ loop ++ forceE ++ saveE ++ postE) = true := by
  have h1 : load ++ pre ++ loop ++ forceE ++ saveE ++ postE
      = (load ++ (pre ++ (loop ++ forceE))) ++ (saveE ++ postE) := by
    simp [List.append_assoc]
  rw [h1, runsBeforeSaves_append]
  · unfold runsBeforeSaves
    rw [List.all_eq_true]
    intro e he
    have hmem := (List.dropWhile_sublist _).subset he
    rcases List.mem_append.mp hmem with h | h
    · simp [hsave e h]
    · simp [hpost e h]
  · intro e he
    rcases List.mem_append.mp he with h | h
    · exact hload e h
    · rcases List.mem_append.mp h with h | h
      · exact hpre e h
      · rcases List.mem_append.mp h with h | h
        · exact hloop e h
        · exact hforce e h

/-- C6: in both `deploy` and `undeploy`, the save events of the trace
are exactly one save of the final cache when acting and none in dry-run
mode, and every save event occurs after every action-execution event. -/
theorem C6_save_once_at_end (opt_act : Bool) (lc : Option Cache)
    (state : FileState) (c : Cache) (cd : String)
    (outcome : Nat → Action → RunResult) :
    (deploy opt_act lc state outcome).1.filter Event.isSave =
      (if opt_act then [Event.saveCache (deploy opt_act lc state outcome).2.2] else [])
    ∧ runsBeforeSaves (deploy opt_act lc state outcome).1 = true
    ∧ undeploy opt_act (some c) cd outcome =
        Except.ok (undeploy_core opt_act c cd outcome)
    ∧ (undeploy_core opt_act c cd outcome).1.filter Event.isSave =
        (if opt_act then
          [Event.saveCache (undeploy_core opt_act c cd outcome).2.2] else [])
    ∧ runsBeforeSaves (undeploy_core opt_act c cd outcome).1 = true := by
  have hno : ∀ (l : List Action) (i : Nat) (st : ExecState),
      (run_loop outcome l i st).1.filter Event.isSave = [] := by
    intro l i st
    exact filter_eq_nil_of_all_false (run_loop_no_saves outcome l i st)
  refine ⟨?_, ?_, rfl, ?_, ?_⟩
  · cases lc with
    | none =>
      simp only [deploy]
      rcases hsf : (run_loop outcome (plan_deploy state) 0
          ⟨Cache.default, false, false⟩).2.suggest_force <;>
        cases opt_act <;>
        simp [hsf, List.filter_append, hno, Event.isSave]
    | some cache =>
      simp only [deploy]
      rcases hsf : (run_loop outcome (plan_deploy state) 0
          ⟨cache, false, false⟩).2.suggest_force <;>
        cases opt_act <;>
        simp [hsf, List.filter_append, hno, Event.isSave]
  · cases lc with
    | none =>
      simp only [deploy]
      exact rbs_assembled [Event.warnEmptyCache] _ _ _ _ _
        (by intro e he; simp at he; subst he; rfl)
        (by intro e he; rw [mem_if_singleton he]; rfl)
        (run_loop_no_saves outcome _ _ _)
        (by intro e he; rw [mem_if_singleton he]; rfl)
        (by intro e he; rw [mem_if_singleton he]; rfl)
        (by intro e he; rw [mem_if_singleton he]; rfl)
    | some cache =>
      simp only [deploy]
      exact rbs_assembled [] _ _ _ _ _
        (by intro e he; simp at he)
        (by intro e he; rw [mem_if_singleton he]; rfl)
        (run_loop_no_saves outcome _ _ _)
        (by intro e he; rw [mem_if_singleton he]; rfl)
        (by intro e he; rw [mem_if_singleton he]; rfl)
        (by intro e he; rw [mem_if_singleton he]; rfl)
  · simp only [undeploy_core]
    rcases hsf : (run_loop outcome (plan_undeploy c cd) 0
        ⟨c, false, false⟩).2.suggest_force <;>
      cases opt_act <;>
      simp [hsf, List.filter_append, hno, Event.isSave]
  · simp only [undeploy_core]
    exact rbs_assembled [] _ _ _ _ _
      (by intro e he; simp at he)
      (by intro e he; rw [mem_if_singleton he]; rfl)
      (run_loop_no_saves outcome _ _ _)
      (by intro e he; rw [mem_if_singleton he]; rfl)
      (by intro e he; rw [mem_if_singleton he]; rfl)
      (by intro e he; rw [mem_if_singleton he]; rfl)

/-- The returned flag after the aggregated-skip check: an error occurred
or some action was skipped. -/
theorem final_error_eq (outcome : Nat → Action → RunResult) (plan : List Action)
    (init : Cache) :
    (if (run_loop outcome plan 0 ⟨init, false, false⟩).2.suggest_force
      then { (run_loop outcome plan 0 ⟨init, false, false⟩).2 with error_occurred := true }
      else (run_loop outcome plan 0 ⟨init, false, false⟩).2).error_occurred =
    ((enumF 0 plan).any (fun p => decide (outcome p.1 p.2 = RunResult.errored))
      || (enumF 0 plan).any (fun p => decide (outcome p.1 p.2 = RunResult.skipped))) := by
  have hs := run_loop_suggest outcome plan 0 ⟨init, false, false⟩
  have he := run_loop_error outcome plan 0 ⟨init, false, false⟩
  simp only [Bool.false_or] at hs he
  rcases hsf : (run_loop outcome plan 0 ⟨init, false, false⟩).2.suggest_force
  · rw [hsf] at hs
    simp [he, ← hs]
  · rw [hsf] at hs
    simp [← hs]

/-- The loop trace contains no aggregated-skip warning event. -/
theorem run_loop_no_warn (outcome : Nat → Action → RunResult) (l : List Action)
    (i : Nat) (st : ExecState) :
    (run_loop outcome l i st).1.filter (fun e => decide (e = Event.forceWarning)) = [] := by
  apply filter_eq_nil_of_all_false
  rw [run_loop_events]
  intro e he
  obtain ⟨p, _, rfl⟩ := List.mem_map.mp he
  simp

/-- C4 (amended): the boolean returned by `deploy` and `undeploy` is true
exactly when some action's execution returned an error **or** some action
was skipped — the aggregated end-of-run skip warning is itself emitted
through the error channel and marks the run as errored; it is emitted at
most once, exactly when some action was skipped. -/
theorem C4_amended_error_signal (opt_act : Bool) (lc : Option Cache)
    (state : FileState) (c : Cache) (cd : String)
    (outcome : Nat → Action → RunResult) :
    (deploy opt_act lc state outcome).2.1 =
      ((enumF 0 (plan_deploy state)).any
          (fun p => decide (outcome p.1 p.2 = RunResult.errored))
        || (enumF 0 (plan_deploy state)).any
          (fun p => decide (outcome p.1 p.2 = RunResult.skipped)))
    ∧ (deploy opt_act lc state outcome).1.filter
          (fun e => decide (e = Event.forceWarning)) =
        (if (enumF 0 (plan_deploy state)).any
            (fun p => decide (outcome p.1 p.2 = RunResult.skipped))
          then [Event.forceWarning] else [])
    ∧ undeploy opt_act (some c) cd outcome =
        Except.ok (undeploy_core opt_act c cd outcome)
    ∧ (undeploy_core opt_act c cd outcome).2.1 =
      ((enumF 0 (plan_undeploy c cd)).any
          (fun p => decide (outcome p.1 p.2 = RunResult.errored))
        || (enumF 0 (plan_undeploy c cd)).any
          (fun p => decide (outcome p.1 p.2 = RunResult.skipped))) := by
  refine ⟨?_, ?_, rfl, ?_⟩
  · cases lc with
    | none =>
      simp only [deploy]
      exact final_error_eq outcome (plan_deploy state) Cache.default
    | some cache =>
      simp only [deploy]
      exact final_error_eq outcome (plan_deploy state) cache
  · have hs : ∀ init : Cache,
        (run_loop outcome (plan_deploy state) 0 ⟨init, false, false⟩).2.suggest_force =
          (enumF 0 (plan_deploy state)).any
            (fun p => decide (outcome p.1 p.2 = RunResult.skipped)) := by
      intro init
      have h := run_loop_suggest outcome (plan_deploy state) 0 ⟨init, false, false⟩
      simpa using h
    cases lc with
    | none =>
      simp only [deploy]
      rw [← hs Cache.default]
      rcases hsf : (run_loop outcome (plan_deploy state) 0
          ⟨Cache.default, false, false⟩).2.suggest_force <;>
        cases opt_act <;>
        simp [hsf, List.filter_append, run_loop_no_warn]
    | some cache =>
      simp only [deploy]
      rw [← hs cache]
      rcases hsf : (run_loop outcome (plan_deploy state) 0
          ⟨cache, false, false⟩).2.suggest_force <;>
        cases opt_act <;>
        simp [hsf, List.filter_append, run_loop_no_warn]
  · simp only [undeploy_core]
    exact final_error_eq outcome (plan_undeploy c cd) c

/-- C4 as stated is false: a run whose only action is skipped (a mere
conflict, no error) still returns `true` — the claimed equivalence
between the returned boolean and "some action returned an error" fails
on a dry run over one desired symlink whose action is skipped. -/
theorem C4_counterexample :
    ¬ (∀ (opt_act : Bool) (lc : Option Cache) (state : FileState)
        (outcome : Nat → Action → RunResult),
        ((deploy opt_act lc state outcome).2.1 = true ↔
          ∃ p ∈ enumF 0 (plan_deploy state), outcome p.1 p.2 = RunResult.errored)) := by
  intro h
  have hinst := h false (some Cache.default) ⟨[aSymlink], [], [], []⟩
    (fun _ _ => RunResult.skipped)
  have hL : (deploy false (some Cache.default) ⟨[aSymlink], [], [], []⟩
      (fun _ _ => RunResult.skipped)).2.1 = true := by decide
  obtain ⟨p, _, hp⟩ := hinst.mp hL
  exact RunResult.noConfusion hp

/-- C9: `undeploy` with no loadable cache fails immediately with the
contextual error, before any plan, action, hook or save — the result is
the bare error and an empty trace. -/
theorem C9_undeploy_requires_cache (opt_act : Bool) (cd : String)
    (outcome : Nat → Action → RunResult) :
    undeploy opt_act none cd outcome =
      Except.error "load cache: Cannot undeploy without a cache." := rfl

/-- C10: `deploy` with no loadable cache warns, substitutes the default
empty cache and proceeds exactly as a run whose loaded cache is the empty
default: same returned boolean, same final cache, same trace except for
the leading warning. -/
theorem C10_deploy_defaults_missing_cache (opt_act : Bool) (state : FileState)
    (outcome : Nat → Action → RunResult) :
    (deploy opt_act none state outcome).1 =
      Event.warnEmptyCache :: (deploy opt_act (some Cache.default) state outcome).1
    ∧ (deploy opt_act none state outcome).2 =
      (deploy opt_act (some Cache.default) state outcome).2 := by
  constructor
  · simp [deploy]
  · rfl

end Dotter
